import Mathlib

/-!
Verification development for the `xpath_reader` crate
(src/reader.rs, src/expression.rs, src/util.rs).

Shallow embedding conventions:
* The external collaborators (the `sxd_document` parser and the
  `sxd_xpath` query engine) are abstracted: a compiled `XPath` and a
  `Context` are opaque handles, and the engine's `Factory::build` and
  `XPath::evaluate` are taken as function parameters (`BuildFn`,
  `EvalFn`), so theorems quantify over every possible engine behaviour.
* A `Node` carries its pre-order (document order) position `id` and its
  XPath string-value; a `Nodeset` carries its insertion-order list of
  nodes with set semantics enforced by `add`.
* Rust references are modelled by value; `Refable::Borrowed` records
  the borrowed value itself, so "same underlying instance" is expressed
  as "Borrowed mode holding the parent's borrowed value".
* `Result<T, Error>` becomes `Except Error T`; panics do not exist in
  the model because every operation is a total Lean function.
-/

namespace XpathReader

/-- A node of a parsed document: `id` is its position in a pre-order
traversal of the source markup (document order), `string_value` its
XPath string-value (`sxd_xpath::nodeset::Node::string_value`). -/
structure Node where
  id : Nat
  string_value : String
deriving DecidableEq

/-- `sxd_xpath::nodeset::Nodeset`: set of nodes, built by insertion,
supporting document-order extraction. `nodes` is the insertion order. -/
structure Nodeset where
  nodes : List Node
deriving DecidableEq

/-- `Nodeset::new()`. -/
def Nodeset.new : Nodeset := ⟨[]⟩

/-- `Nodeset::add`: set semantics, inserting an already present node is
a no-op. -/
def Nodeset.add (ns : Nodeset) (n : Node) : Nodeset :=
  if n ∈ ns.nodes then ns else ⟨ns.nodes ++ [n]⟩

/-- Document order as a relation on nodes (pre-order position). -/
def docLE : Node → Node → Prop := fun a b => a.id ≤ b.id

instance : DecidableRel docLE := fun a b => Nat.decLe a.id b.id

instance : IsTotal Node docLE := ⟨fun a b => Nat.le_total a.id b.id⟩

instance : IsTrans Node docLE := ⟨fun _ _ _ h1 h2 => Nat.le_trans h1 h2⟩

/-- `Nodeset::document_order`: the nodes sorted into document order. -/
def Nodeset.document_order (ns : Nodeset) : List Node :=
  List.insertionSort docLE ns.nodes

/-- First-minimal node by document order (`Iterator::min_by`: on ties
the earlier element wins). -/
def docMin : List Node → Option Node
  | [] => none
  | n :: ns =>
    match docMin ns with
    | none => some n
    | some m => if m.id < n.id then some m else some n

/-- `Nodeset::document_order_first`: the minimum of the set in document
order, `none` on the empty set. -/
def Nodeset.document_order_first (ns : Nodeset) : Option Node :=
  docMin ns.nodes

/-- `sxd_document::Package`: an owned parsed document, exposing its
synthetic root node (`package.as_document().root()`). -/
structure Package where
  root : Node
deriving DecidableEq

/-- `sxd_xpath::Context`: opaque handle for namespace/variable/function
bindings; the core never inspects it, only passes it to the engine. -/
structure Context where
  id : Nat
deriving DecidableEq

/-- `Context::default()`. -/
def Context.default : Context := ⟨0⟩

/-- A compiled XPath query (`sxd_xpath::XPath`): opaque engine handle. -/
structure XPath where
  id : Nat
deriving DecidableEq

/-- Model of the `Debug` formatting of a compiled `XPath`. -/
def xpathDebug (x : XPath) : String := "XPath " ++ toString x.id

/-- `sxd_xpath::Value`: the four result shapes of query evaluation. -/
inductive Value where
  | Nodeset (ns : XpathReader.Nodeset)
  | Boolean (b : Bool)
  | Number (n : Float)
  | Str (s : String)

/-- Modelled from the spec: the crate's `Error` type with an
`ErrorKind` discriminant is imported by `reader.rs` and `expression.rs`
(`use errors::{Error, ErrorKind};`) but its defining module is not
among the provided sources (the provided `errors.rs` belongs to an
older revision).  The kinds follow spec §7 (taxonomy: ParseXml,
CompileQuery, EvaluateQuery, ConversionValue, Custom) using the
constructor names the provided code applies: `ParseXPath` is the
compile kind (spec `CompileQuery`), `EvalXPath` the evaluation kind
(spec `EvaluateQuery`). -/
inductive ErrorKind where
  | ParseXml
  | ParseXPath
  | EvalXPath
  | ConversionValue
  | Custom
deriving DecidableEq

/-- Modelled from the spec: the uniform error value, a kind
discriminant plus a diagnostic message (spec §7: "surfaced uniformly
through one error type with a kind discriminant"). -/
structure Error where
  kind : ErrorKind
  message : String
deriving DecidableEq

/-- Modelled from the spec: `Error::internal(msg, kind)`, the internal
constructor the provided code uses with an explicit kind. -/
def Error.internal (msg : String) (kind : ErrorKind) : Error := ⟨kind, msg⟩

/-- Modelled from the spec: `Error::custom_msg`, the escape-hatch
constructor for capability-supplied messages (spec §7 `Custom` kind). -/
def Error.custom_msg (msg : String) : Error := ⟨ErrorKind.Custom, msg⟩

/-- Modelled from the spec: `Error::custom_err(e)`, wrapping an
underlying error value (here: its rendered message) in the `Custom`
escape-hatch kind. -/
def Error.custom_err (msg : String) : Error := ⟨ErrorKind.Custom, msg⟩

instance {ε α : Type} [DecidableEq ε] [DecidableEq α] : DecidableEq (Except ε α)
  | .ok x, .ok y =>
    if h : x = y then .isTrue (by rw [h])
    else .isFalse (fun hh => h (Except.ok.inj hh))
  | .ok _, .error _ => .isFalse (fun hh => Except.noConfusion hh)
  | .error _, .ok _ => .isFalse (fun hh => Except.noConfusion hh)
  | .error d, .error e =>
    if h : d = e then .isTrue (by rw [h])
    else .isFalse (fun hh => h (Except.error.inj hh))

/-- `util.rs` `Refable`: holds either an owned value or a (modelled by
value) reference to an externally owned value. -/
inductive Refable (α : Type) where
  | Owned (v : α)
  | Borrowed (v : α)
deriving DecidableEq

/-- `Refable::borrow` (the `Borrow<T>` impl): uniform read access. -/
def Refable.borrow {α : Type} : Refable α → α
  | .Owned v => v
  | .Borrowed v => v

/-- `Refable::clone_ref`: a new cell in Borrowed mode at the same
underlying value. -/
def Refable.clone_ref {α : Type} (r : Refable α) : Refable α :=
  .Borrowed r.borrow

/-- `expression.rs` `Repr`: an expression is either already compiled or
raw source text (the `Cow` borrow/own distinction is collapsed). -/
inductive Repr where
  | Parsed (refable : Refable XPath)
  | Unparsed (s : String)

/-- `expression.rs` `XPathExpression`: newtype over `Repr`. -/
structure XPathExpression where
  val : Repr

/-- The engine's `Factory::new().build(expr)`: returns an error, no
program (`Ok(None)`), or a compiled query.  Taken as a parameter. -/
def BuildFn : Type := String → Except String (Option XPath)

/-- The engine's `XPath::evaluate(context, node)`.  Taken as a
parameter. -/
def EvalFn : Type := XPath → Context → Node → Except String Value

/-- `expression.rs` `parse_xpath`: compile via the factory, mapping an
engine failure and the "compiled to nothing" case to `ParseXPath`. -/
def parse_xpath (bld : BuildFn) (xpath_expr : String) : Except Error XPath :=
  match bld xpath_expr with
  | .error e => .error (Error.internal e ErrorKind.ParseXPath)
  | .ok none => .error (Error.internal "Empty XPath expression." ErrorKind.ParseXPath)
  | .ok (some x) => .ok x

/-- `expression.rs` module-level `parse`: eager compilation into a
`Parsed(Refable::Owned(..))` expression. -/
def expressionParse (bld : BuildFn) (xpath_expr : String) : Except Error XPathExpression :=
  match parse_xpath bld xpath_expr with
  | .error e => .error e
  | .ok x => .ok ⟨Repr.Parsed (Refable.Owned x)⟩

/-- `XPathExpression::parsed`: re-borrow the compiled query if held,
otherwise compile the held text now. -/
def XPathExpression.parsed (bld : BuildFn) (x : XPathExpression) : Except Error (Refable XPath) :=
  match x.val with
  | Repr.Parsed refable => .ok refable.clone_ref
  | Repr.Unparsed s =>
    match parse_xpath bld s with
    | .error e => .error e
    | .ok xp => .ok (Refable.Owned xp)

/-- `XPathExpression::to_string`: debug-format of the compiled form, or
the raw text. -/
def XPathExpression.to_string (x : XPathExpression) : String :=
  match x.val with
  | Repr.Parsed refable => xpathDebug refable.borrow
  | Repr.Unparsed s => s

/-- `From<XPath> for XPathExpression`. -/
def XPathExpression.ofXPath (x : XPath) : XPathExpression :=
  ⟨Repr.Parsed (Refable.Owned x)⟩

/-- `From<&XPath> for XPathExpression`. -/
def XPathExpression.ofXPathRef (x : XPath) : XPathExpression :=
  ⟨Repr.Parsed (Refable.Borrowed x)⟩

/-- `From<&str> / From<String> for XPathExpression`. -/
def XPathExpression.ofStr (s : String) : XPathExpression :=
  ⟨Repr.Unparsed s⟩

/-- `reader.rs` `Anchor`: a node-set, or a whole owned document. -/
inductive Anchor where
  | Nodeset (ns : XpathReader.Nodeset)
  | Root (pkg : Package)

/-- `reader.rs` `Reader`: a context cell plus an anchor. -/
structure Reader where
  context : Refable Context
  anchor : Anchor

/-- `Reader::from_nodeset`: wrap a caller-supplied node-set (possibly
empty), borrowing the supplied context or owning a default one. -/
def Reader.from_nodeset (ns : Nodeset) (ctx : Option Context) : Reader :=
  match ctx with
  | some c => ⟨Refable.Borrowed c, Anchor.Nodeset ns⟩
  | none => ⟨Refable.Owned Context.default, Anchor.Nodeset ns⟩

/-- `Reader::from_node`: singleton node-set convenience constructor. -/
def Reader.from_node (n : Node) (ctx : Option Context) : Reader :=
  Reader.from_nodeset (Nodeset.new.add n) ctx

/-- `Reader::anchor_nodeset`: the anchor node-set, synthesized as the
singleton root-node set for a Root anchor. -/
def Reader.anchor_nodeset (r : Reader) : Nodeset :=
  match r.anchor with
  | Anchor.Nodeset ns => ns
  | Anchor.Root pkg => Nodeset.new.add pkg.root

/-- `Reader::anchor_node`: document-order-first node of the anchor. -/
def Reader.anchor_node (r : Reader) : Option Node :=
  match r.anchor with
  | Anchor.Nodeset ns => ns.document_order_first
  | Anchor.Root pkg => some pkg.root

/-- `Reader::evaluate`: compile (if needed), find the anchor node, run
the engine; missing anchor and engine failure are `EvalXPath` kind. -/
def Reader.evaluate (bld : BuildFn) (ev : EvalFn) (r : Reader) (x : XPathExpression) :
    Except Error Value :=
  match x.parsed bld with
  | .error e => .error e
  | .ok xp =>
    match r.anchor_node with
    | none =>
      .error (Error.internal ("Anchor node not found when evaluating: " ++ xpathDebug xp.borrow)
        ErrorKind.EvalXPath)
    | some anchor =>
      match ev xp.borrow r.context.borrow anchor with
      | .error e => .error (Error.internal e ErrorKind.EvalXPath)
      | .ok v => .ok v

/-- `Reader::with_nodeset_eval`: evaluate and require a node-set
result; the new reader re-borrows the context via `clone_ref`. -/
def Reader.with_nodeset_eval (bld : BuildFn) (ev : EvalFn) (r : Reader) (x : XPathExpression) :
    Except Error Reader :=
  match r.evaluate bld ev x with
  | .error e => .error e
  | .ok (Value.Nodeset ns) => .ok ⟨r.context.clone_ref, Anchor.Nodeset ns⟩
  | .ok _ =>
    .error (Error.internal
      ("XPath expression did not evaluate to nodeset: '" ++ x.to_string ++ "'")
      ErrorKind.EvalXPath)

/-- `Reader::read`: derive a reader by `with_nodeset_eval`, then decode
through the target type's `FromXml` capability (passed as `dec`). -/
def Reader.read {α : Type} (bld : BuildFn) (ev : EvalFn) (dec : Reader → Except Error α)
    (r : Reader) (x : XPathExpression) : Except Error α :=
  match r.with_nodeset_eval bld ev x with
  | .error e => .error e
  | .ok r2 => dec r2

/-- `impl FromXml for String`: string-value of the anchor node; an
absent anchor node is an error. -/
def fromXmlString (r : Reader) : Except Error String :=
  match r.anchor_node with
  | none => .error (Error.custom_msg "Missing (anchor) node.")
  | some n => .ok n.string_value

/-- `impl FromXml for Option<String>`: `none` on an absent anchor node
or an empty string-value, never an error. -/
def fromXmlOptionString (r : Reader) : Except Error (Option String) :=
  .ok (r.anchor_node.bind fun node =>
    let s := node.string_value
    if s.isEmpty then none else some s)

/-- The element loop of `impl FromXml for Vec<T>`: each node is decoded
through a fresh singleton reader borrowing the parent's context `c`;
`collect::<Result<Vec<_>,_>>` stops at the first error. -/
def collectFromNodes {α : Type} (dec : Reader → Except Error α) (c : Context) :
    List Node → Except Error (List α)
  | [] => .ok []
  | n :: ns =>
    match dec (Reader.from_node n (some c)) with
    | .error e => .error e
    | .ok v =>
      match collectFromNodes dec c ns with
      | .error e => .error e
      | .ok vs => .ok (v :: vs)

/-- `impl FromXml for Vec<T>`: decode the anchor node-set in document
order. -/
def fromXmlVec {α : Type} (dec : Reader → Except Error α) (r : Reader) :
    Except Error (List α) :=
  collectFromNodes dec r.context.borrow r.anchor_nodeset.document_order

/-- The `from_parse_str!` macro's `impl FromXml for $type`: decode a
`String`, then apply the target type's textual parse `p`, wrapping a
parse failure with `Error::custom_err`. -/
def fromXmlParsed {β : Type} (p : String → Except String β) (r : Reader) : Except Error β :=
  match fromXmlString r with
  | .error e => .error e
  | .ok s =>
    match p s with
    | .error e => .error (Error.custom_err e)
    | .ok v => .ok v

/-- The `from_parse_str!` macro's `impl FromXml for Option<$type>`:
`none` propagates, a present string must parse. -/
def fromXmlParsedOption {β : Type} (p : String → Except String β) (r : Reader) :
    Except Error (Option β) :=
  match fromXmlOptionString r with
  | .error e => .error e
  | .ok none => .ok none
  | .ok (some s) =>
    match p s with
    | .error e => .error (Error.custom_err e)
    | .ok v => .ok (some v)

/-- `impl<T: FromXmlOptional> FromXml for T`: absence becomes the
`Error::custom_msg` "Missing value" error (`stringify!(T)` renders the
literal generic parameter name `T`, debug-quoted). -/
def fromXmlOfOptional {α : Type} (fxo : Reader → Except Error (Option α)) (r : Reader) :
    Except Error α :=
  match fxo r with
  | .error e => .error e
  | .ok none => .error (Error.custom_msg "Missing value for type \"T\"")
  | .ok (some v) => .ok v

/-- `impl<T: FromXmlOptional> FromXml for Option<T>`: delegates. -/
def fromXmlOptionOfOptional {α : Type} (fxo : Reader → Except Error (Option α)) (r : Reader) :
    Except Error (Option α) :=
  fxo r

/-- Display of `std::num::IntErrorKind::Empty`. -/
def intErrEmpty : String := "cannot parse integer from empty string"

/-- Display of `std::num::IntErrorKind::InvalidDigit`. -/
def intErrInvalid : String := "invalid digit found in string"

/-- Display of `std::num::IntErrorKind::PosOverflow`. -/
def intErrOverflow : String := "number too large to fit in target type"

/-- Digit-accumulation loop of `u32::from_str` (radix 10), with the
overflow bound of `u32`. -/
def parseU32Digits : List Char → Nat → Except String Nat
  | [], acc => .ok acc
  | c :: rest, acc =>
    if c.isDigit then
      let acc2 := acc * 10 + (c.toNat - 48)
      if acc2 > 4294967295 then .error intErrOverflow
      else parseU32Digits rest acc2
    else .error intErrInvalid

/-- `u32::from_str`: empty input, optional leading plus sign, decimal
digits with an overflow check; errors carry only the fixed
`IntErrorKind` display text, never the offending input. -/
def parseU32 (s : String) : Except String Nat :=
  let cs := s.toList
  match cs with
  | [] => .error intErrEmpty
  | c :: rest =>
    if c = '+' then
      match rest with
      | [] => .error intErrInvalid
      | _ => parseU32Digits rest 0
    else parseU32Digits cs 0

/-- `bool::from_str`: exactly "true" or "false"; the `ParseBoolError`
display is a fixed text without the offending input. -/
def parseBool (s : String) : Except String Bool :=
  if s = "true" then .ok true
  else if s = "false" then .ok false
  else .error "provided string was not `true` or `false`"

/-- One derivation step between readers: either `with_nodeset_eval`
(the relative-query derivation) or the per-element singleton reader
built inside `Vec<T>::from_xml` (`Reader::from_node(node,
Some(reader.context()))`). -/
inductive DerivedStep (bld : BuildFn) (ev : EvalFn) : Reader → Reader → Prop
  | eval {r r2 : Reader} (x : XPathExpression) :
      r.with_nodeset_eval bld ev x = .ok r2 → DerivedStep bld ev r r2
  | elem {r : Reader} (n : Node) :
      DerivedStep bld ev r (Reader.from_node n (some r.context.borrow))

/-- Concrete fixture node with a non-empty string-value. -/
def nodeHello : Node := ⟨1, "Hello"⟩

/-- Concrete fixture node whose string-value is empty. -/
def nodeEmptyStr : Node := ⟨2, ""⟩

/-- Concrete fixture node whose string-value fails numeric parsing. -/
def nodeAbc : Node := ⟨3, "abc"⟩

/-- Concrete fixture context. -/
def ctx0 : Context := ⟨7⟩

/-- Concrete fixture compiled query handle. -/
def q0 : XPath := ⟨0⟩

/-- Concrete fixture document whose synthetic root has id 0. -/
def pkg0 : Package := ⟨⟨0, "Hello"⟩⟩

/-- A root reader over the fixture document, owning the context. -/
def rootReader : Reader := ⟨Refable.Owned ctx0, Anchor.Root pkg0⟩

/-- A reader anchored at an explicit node list, owning the context. -/
def readerOf (l : List Node) : Reader := ⟨Refable.Owned ctx0, Anchor.Nodeset ⟨l⟩⟩

/-- Fixture factory: every expression compiles to the handle `q0`. -/
def buildOk : BuildFn := fun _ => .ok (some q0)

/-- Fixture engine returning the empty node-set for every query. -/
def evalEmptyNS : EvalFn := fun _ _ _ => .ok (Value.Nodeset ⟨[]⟩)

/-- Fixture engine returning the singleton `nodeHello` node-set. -/
def evalHello : EvalFn := fun _ _ _ => .ok (Value.Nodeset ⟨[nodeHello]⟩)

/-- Fixture engine returning a string value (not a node-set). -/
def evalStr : EvalFn := fun _ _ _ => .ok (Value.Str "s")

/-- Fixture factory rejecting every expression. -/
def buildFail : BuildFn := fun _ => .error "invalid xpath"

/-- Fixture factory compiling every expression to no program. -/
def buildNone : BuildFn := fun _ => .ok none

/-- The reader derived from `rootReader` by evaluating under
`evalHello`: Borrowed-mode context, singleton anchor. -/
def r1fix : Reader := ⟨Refable.Borrowed ctx0, Anchor.Nodeset ⟨[nodeHello]⟩⟩

/-- `docMin` always finds a node in a nonempty list. -/
theorem docMin_isSome_cons (n : Node) (ns : List Node) : (docMin (n :: ns)).isSome := by
  simp only [docMin]
  cases docMin ns
  · rfl
  · dsimp only
    split <;> rfl

/-- `docMin` finds a node exactly on nonempty lists. -/
theorem docMin_eq_none_iff (l : List Node) : docMin l = none ↔ l = [] := by
  cases l with
  | nil => simp [docMin]
  | cons n ns =>
    simp only [List.cons_ne_nil, iff_false]
    intro h
    have hs := docMin_isSome_cons n ns
    rw [h] at hs
    exact absurd hs (by simp)

/-- Head of an ordered insertion, as a function of the old head. -/
theorem head_orderedInsert (n : Node) (l : List Node) :
    (List.orderedInsert docLE n l).head? =
      match l.head? with
      | none => some n
      | some m => if n.id ≤ m.id then some n else some m := by
  cases l with
  | nil => rfl
  | cons m ms =>
    by_cases h : n.id ≤ m.id
    · simp [List.orderedInsert, docLE, h]
    · simp [List.orderedInsert, docLE, h]

/-- The first-minimal node equals the head of the document-order
sort. -/
theorem docMin_eq_head_sort (l : List Node) :
    docMin l = (List.insertionSort docLE l).head? := by
  induction l with
  | nil => rfl
  | cons n ns ih =>
    simp only [docMin, List.insertionSort]
    rw [head_orderedInsert, ← ih]
    cases h : docMin ns with
    | none => rfl
    | some m =>
      simp only []
      split <;> split <;> first | rfl | omega

/-- `document_order` is a permutation of the stored nodes. -/
theorem document_order_perm (ns : Nodeset) : ns.document_order.Perm ns.nodes :=
  List.perm_insertionSort docLE ns.nodes

/-- `document_order` is sorted by document order. -/
theorem document_order_sorted (ns : Nodeset) : List.Sorted docLE ns.document_order :=
  List.sorted_insertionSort docLE ns.nodes

/-- `document_order` is empty exactly when the node-set is. -/
theorem document_order_eq_nil_iff (ns : Nodeset) :
    ns.document_order = [] ↔ ns.nodes = [] := by
  have hp := document_order_perm ns
  constructor
  · intro h
    rw [h] at hp
    exact hp.symm.eq_nil
  · intro h
    rw [Nodeset.document_order, h]
    rfl

/-- `document_order_first` is the head of `document_order`. -/
theorem document_order_first_eq_head (ns : Nodeset) :
    ns.document_order_first = ns.document_order.head? :=
  docMin_eq_head_sort ns.nodes

/-- `Reader::from_node(n, Some(c))` in closed form: singleton anchor,
Borrowed-mode context. -/
theorem from_node_eq (n : Node) (c : Context) :
    Reader.from_node n (some c) = ⟨Refable.Borrowed c, Anchor.Nodeset ⟨[n]⟩⟩ := by
  simp [Reader.from_node, Reader.from_nodeset, Nodeset.new, Nodeset.add]

/-- The element loop maps a total decoder over the node list. -/
theorem collectFromNodes_map {α : Type} (dec : Reader → Except Error α) (c : Context)
    (f : Node → α) :
    ∀ l : List Node, (∀ n ∈ l, dec (Reader.from_node n (some c)) = .ok (f n)) →
      collectFromNodes dec c l = .ok (l.map f) := by
  intro l
  induction l with
  | nil => intro _; rfl
  | cons n ns ih =>
    intro h
    simp only [collectFromNodes]
    rw [h n (List.mem_cons_self n ns), ih (fun m hm => h m (List.mem_cons_of_mem n hm))]
    simp

/-- The element loop stops at the first failing node, returning its
error. -/
theorem collectFromNodes_failfast {α : Type} (dec : Reader → Except Error α) (c : Context)
    (e : Error) :
    ∀ (l1 : List Node) (n : Node) (l2 : List Node),
      (∀ m ∈ l1, ∃ v, dec (Reader.from_node m (some c)) = .ok v) →
      dec (Reader.from_node n (some c)) = .error e →
      collectFromNodes dec c (l1 ++ n :: l2) = .error e := by
  intro l1
  induction l1 with
  | nil =>
    intro n l2 _ hn
    simp only [List.nil_append, collectFromNodes, hn]
  | cons m ms ih =>
    intro n l2 hok hn
    obtain ⟨v, hv⟩ := hok m (List.mem_cons_self m ms)
    have hrest := ih n l2 (fun m2 hm2 => hok m2 (List.mem_cons_of_mem m hm2)) hn
    simp only [List.cons_append, collectFromNodes, hv, List.append_eq, hrest]

/-- One derivation step leaves the child's context in Borrowed mode at
the parent's borrowed context. -/
theorem derivedStep_context {bld : BuildFn} {ev : EvalFn} {r r2 : Reader}
    (h : DerivedStep bld ev r r2) :
    r2.context = Refable.Borrowed (r.context.borrow) := by
  cases h with
  | eval x hx =>
    revert hx
    simp only [Reader.with_nodeset_eval]
    cases hv : r.evaluate bld ev x with
    | error e => intro hx; exact Except.noConfusion hx
    | ok v =>
      cases v with
      | Nodeset ns =>
        intro hx
        injection hx with hx2
        rw [← hx2]
        rfl
      | Boolean b => intro hx; exact Except.noConfusion hx
      | Number fl => intro hx; exact Except.noConfusion hx
      | Str s => intro hx; exact Except.noConfusion hx
  | elem n =>
    rw [from_node_eq]

/-- C7: `anchor_node()` returns the document-order-first node of the
anchor node-set (the head of the document-order sequence of
`anchor_nodeset()`); it is `none` exactly when the anchor is an empty
node-set, and a Document-root anchor always yields the synthetic root
node, never `none`. -/
theorem C7_anchor_node_first (r : Reader) :
    r.anchor_node = r.anchor_nodeset.document_order_first ∧
    r.anchor_node = r.anchor_nodeset.document_order.head? ∧
    (∀ ns, r.anchor = Anchor.Nodeset ns → (r.anchor_node = none ↔ ns.nodes = [])) ∧
    (∀ pkg, r.anchor = Anchor.Root pkg → r.anchor_node = some pkg.root) := by
  obtain ⟨ctx, anchor⟩ := r
  cases anchor with
  | Nodeset ns =>
    refine ⟨rfl, document_order_first_eq_head ns, ?_, ?_⟩
    · intro ns2 h
      injection h with h2
      subst h2
      exact docMin_eq_none_iff ns.nodes
    · intro pkg h
      exact Anchor.noConfusion h
  | Root pkg =>
    refine ⟨?_, ?_, ?_, ?_⟩
    · simp [Reader.anchor_node, Reader.anchor_nodeset, Nodeset.new, Nodeset.add,
        Nodeset.document_order_first, docMin]
    · simp [Reader.anchor_node, Reader.anchor_nodeset, Nodeset.new, Nodeset.add,
        Nodeset.document_order, List.insertionSort]
    · intro ns2 h
      exact Anchor.noConfusion h
    · intro pkg2 h
      injection h with h2
      subst h2
      rfl

/-- C7 witness: a Document-root anchor yields the synthetic root
node. -/
theorem C7_anchor_node_first_witness :
    rootReader.anchor_node = some pkg0.root :=
  (C7_anchor_node_first rootReader).2.2.2 pkg0 rfl

/-- C2 (as stated): `Option<String>::from_xml` never errors; it
returns `Ok(None)` exactly when the anchor's document-order-first node
is absent or its string-value is empty, and otherwise `Ok(Some(s))`
where `s` is that node's string-value. -/
theorem C2_option_string_exact (r : Reader) :
    (∀ e, fromXmlOptionString r ≠ .error e) ∧
    (fromXmlOptionString r = .ok none ↔
      r.anchor_node = none ∨ ∃ n, r.anchor_node = some n ∧ n.string_value = "") ∧
    (∀ n, r.anchor_node = some n → n.string_value ≠ "" →
      fromXmlOptionString r = .ok (some n.string_value)) := by
  refine ⟨fun e => by simp [fromXmlOptionString], ?_, ?_⟩
  · cases h : r.anchor_node with
    | none => simp [fromXmlOptionString, h]
    | some n =>
      by_cases hs : n.string_value.isEmpty
      · have hsv : n.string_value = "" := (String.isEmpty_iff n.string_value).mp hs
        simp [fromXmlOptionString, h, hsv, String.isEmpty_iff]
      · have hsv : n.string_value ≠ "" :=
          fun hh => hs ((String.isEmpty_iff n.string_value).mpr hh)
        simp [fromXmlOptionString, h, String.isEmpty_iff, hsv]
  · intro n h hne
    simp [fromXmlOptionString, h, String.isEmpty_iff, hne]

/-- C2 witness: at a singleton anchor with a nonempty string-value the
string is returned. -/
theorem C2_option_string_exact_witness :
    fromXmlOptionString (readerOf [nodeHello]) = .ok (some nodeHello.string_value) :=
  (C2_option_string_exact (readerOf [nodeHello])).2.2 nodeHello rfl (by decide)

/-- C10: `Option<T>::from_xml` is exactly `T::from_xml_optional`, and
`T::from_xml` returns the value on `Ok(Some(v))`, the Custom-kind
"Missing value" error on `Ok(None)`, and propagates errors unchanged. -/
theorem C10_from_xml_optional_blanket {α : Type} (fxo : Reader → Except Error (Option α))
    (r : Reader) :
    fromXmlOptionOfOptional fxo r = fxo r ∧
    (∀ v, fxo r = .ok (some v) → fromXmlOfOptional fxo r = .ok v) ∧
    (fxo r = .ok none →
      fromXmlOfOptional fxo r = .error (Error.custom_msg "Missing value for type \"T\"") ∧
      (Error.custom_msg "Missing value for type \"T\"").kind = ErrorKind.Custom) ∧
    (∀ e, fxo r = .error e → fromXmlOfOptional fxo r = .error e) := by
  refine ⟨rfl, fun v hv => ?_, fun hn => ⟨?_, rfl⟩, fun e he => ?_⟩
  · simp [fromXmlOfOptional, hv]
  · simp [fromXmlOfOptional, hn]
  · simp [fromXmlOfOptional, he]

/-- C10 witness: a `from_xml_optional` returning `Ok(None)` makes the
blanket `from_xml` produce the Custom-kind "Missing value" error. -/
theorem C10_from_xml_optional_blanket_witness :
    fromXmlOfOptional (fun _ => (Except.ok none : Except Error (Option Nat))) rootReader =
      .error (Error.custom_msg "Missing value for type \"T\"") :=
  ((C10_from_xml_optional_blanket (fun _ => (Except.ok none : Except Error (Option Nat)))
    rootReader).2.2.1 rfl).1

/-- C1: when the expression evaluates to an empty node-set, `read`
yields `Ok(None)` at `Option<String>`, `Ok(vec![])` at `Vec<String>`,
and an error (never `Ok`, in particular never the empty string) at
`String`. -/
theorem C1_zero_nodes (bld : BuildFn) (ev : EvalFn) (r : Reader) (x : XPathExpression)
    (ns : Nodeset) (hev : r.evaluate bld ev x = .ok (Value.Nodeset ns))
    (hns : ns.nodes = []) :
    Reader.read bld ev fromXmlOptionString r x = .ok none ∧
    Reader.read bld ev (fromXmlVec fromXmlString) r x = .ok [] ∧
    (∃ e, Reader.read bld ev fromXmlString r x = .error e) ∧
    (∀ s, Reader.read bld ev fromXmlString r x ≠ .ok s) := by
  obtain ⟨nsl⟩ := ns
  simp only [Nodeset.mk.injEq] at hns
  subst hns
  have h2 : r.with_nodeset_eval bld ev x = .ok ⟨r.context.clone_ref, Anchor.Nodeset ⟨[]⟩⟩ := by
    simp only [Reader.with_nodeset_eval, hev]
  have hos : Reader.read bld ev fromXmlOptionString r x = .ok none := by
    simp [Reader.read, h2, fromXmlOptionString, Reader.anchor_node,
      Nodeset.document_order_first, docMin]
  have hvec : Reader.read bld ev (fromXmlVec fromXmlString) r x = .ok [] := by
    simp [Reader.read, h2, fromXmlVec, Reader.anchor_nodeset, Nodeset.document_order,
      List.insertionSort, collectFromNodes]
  have hstr : Reader.read bld ev fromXmlString r x =
      .error (Error.custom_msg "Missing (anchor) node.") := by
    simp [Reader.read, h2, fromXmlString, Reader.anchor_node,
      Nodeset.document_order_first, docMin]
  exact ⟨hos, hvec, ⟨_, hstr⟩, fun s => by simp [hstr]⟩

/-- C1 witness: a concrete engine selecting zero nodes. -/
theorem C1_zero_nodes_witness :
    Reader.read buildOk evalEmptyNS fromXmlOptionString rootReader
      (XPathExpression.ofStr "//x") = .ok none ∧
    Reader.read buildOk evalEmptyNS (fromXmlVec fromXmlString) rootReader
      (XPathExpression.ofStr "//x") = .ok [] ∧
    (∃ e, Reader.read buildOk evalEmptyNS fromXmlString rootReader
      (XPathExpression.ofStr "//x") = .error e) ∧
    (∀ s, Reader.read buildOk evalEmptyNS fromXmlString rootReader
      (XPathExpression.ofStr "//x") ≠ .ok s) :=
  C1_zero_nodes buildOk evalEmptyNS rootReader (XPathExpression.ofStr "//x") ⟨[]⟩ rfl rfl

/-- C3: `Vec<T>::from_xml` visits the anchor node-set in document
order (a sorted permutation of the stored nodes); each node is decoded
through a fresh singleton-node reader whose context is Borrowed-mode
shared with the parent; on total success the results keep document
order; it fails fast with the first failing element's error; an empty
anchor yields the empty vector. -/
theorem C3_vec_document_order {α : Type} (dec : Reader → Except Error α) (r : Reader) :
    List.Sorted docLE r.anchor_nodeset.document_order ∧
    r.anchor_nodeset.document_order.Perm r.anchor_nodeset.nodes ∧
    (∀ (n : Node) (c : Context),
      Reader.from_node n (some c) = ⟨Refable.Borrowed c, Anchor.Nodeset ⟨[n]⟩⟩) ∧
    (r.anchor_nodeset.nodes = [] → fromXmlVec dec r = .ok []) ∧
    (∀ f : Node → α,
      (∀ n ∈ r.anchor_nodeset.document_order,
        dec (Reader.from_node n (some r.context.borrow)) = .ok (f n)) →
      fromXmlVec dec r = .ok (r.anchor_nodeset.document_order.map f)) ∧
    (∀ (l1 : List Node) (n : Node) (l2 : List Node) (e : Error),
      r.anchor_nodeset.document_order = l1 ++ n :: l2 →
      (∀ m ∈ l1, ∃ v, dec (Reader.from_node m (some r.context.borrow)) = .ok v) →
      dec (Reader.from_node n (some r.context.borrow)) = .error e →
      fromXmlVec dec r = .error e) := by
  refine ⟨document_order_sorted _, document_order_perm _, from_node_eq, ?_, ?_, ?_⟩
  · intro h
    rw [fromXmlVec, (document_order_eq_nil_iff _).mpr h]
    rfl
  · intro f hf
    exact collectFromNodes_map dec r.context.borrow f _ hf
  · intro l1 n l2 e hsplit hok hn
    rw [fromXmlVec, hsplit]
    exact collectFromNodes_failfast dec r.context.borrow e l1 n l2 hok hn

/-- C3 witness: two nodes inserted out of document order come back in
document order. -/
theorem C3_vec_document_order_witness :
    fromXmlVec fromXmlString (readerOf [nodeAbc, nodeHello]) = .ok ["Hello", "abc"] := by
  have h := (C3_vec_document_order fromXmlString (readerOf [nodeAbc, nodeHello])).2.2.2.2.1
    Node.string_value (by decide)
  rw [h]
  rfl

/-- C4: assuming the expression compiles and (where reached) the engine
succeeds, `with_nodeset_eval` fails with an `EvalXPath`-kind error
exactly in the two non-engine cases — empty anchor, or a non-node-set
result value — and on a node-set result the returned reader's anchor is
that node-set. -/
theorem C4_with_nodeset_eval_kinds (bld : BuildFn) (ev : EvalFn) (r : Reader)
    (x : XPathExpression) (q : Refable XPath) (hp : x.parsed bld = .ok q) :
    (r.anchor_node = none →
      ∃ e, r.with_nodeset_eval bld ev x = .error e ∧ e.kind = ErrorKind.EvalXPath) ∧
    (∀ (n : Node) (v : Value), r.anchor_node = some n →
      ev q.borrow r.context.borrow n = .ok v →
      ((∀ ns, v ≠ Value.Nodeset ns) →
        ∃ e, r.with_nodeset_eval bld ev x = .error e ∧ e.kind = ErrorKind.EvalXPath) ∧
      (∀ ns, v = Value.Nodeset ns →
        r.with_nodeset_eval bld ev x = .ok ⟨r.context.clone_ref, Anchor.Nodeset ns⟩)) := by
  constructor
  · intro ha
    have hw : r.with_nodeset_eval bld ev x =
        .error (Error.internal ("Anchor node not found when evaluating: " ++ xpathDebug q.borrow)
          ErrorKind.EvalXPath) := by
      simp only [Reader.with_nodeset_eval, Reader.evaluate, hp, ha]
    exact ⟨Error.internal ("Anchor node not found when evaluating: " ++ xpathDebug q.borrow)
      ErrorKind.EvalXPath, hw, rfl⟩
  · intro n v ha hev
    have heval : r.evaluate bld ev x = .ok v := by
      simp only [Reader.evaluate, hp, ha, hev]
    constructor
    · intro hnn
      cases v with
      | Nodeset ns => exact absurd rfl (hnn ns)
      | Boolean b =>
        refine ⟨Error.internal
          ("XPath expression did not evaluate to nodeset: '" ++ x.to_string ++ "'")
          ErrorKind.EvalXPath, ?_, rfl⟩
        simp only [Reader.with_nodeset_eval, heval]
      | Number fl =>
        refine ⟨Error.internal
          ("XPath expression did not evaluate to nodeset: '" ++ x.to_string ++ "'")
          ErrorKind.EvalXPath, ?_, rfl⟩
        simp only [Reader.with_nodeset_eval, heval]
      | Str s =>
        refine ⟨Error.internal
          ("XPath expression did not evaluate to nodeset: '" ++ x.to_string ++ "'")
          ErrorKind.EvalXPath, ?_, rfl⟩
        simp only [Reader.with_nodeset_eval, heval]
    · intro ns hv
      subst hv
      simp only [Reader.with_nodeset_eval, heval]

/-- C4 witness: the three branches at concrete engines — empty anchor,
string-valued result, node-set result. -/
theorem C4_with_nodeset_eval_kinds_witness :
    (∃ e, (readerOf []).with_nodeset_eval buildOk evalEmptyNS (XPathExpression.ofStr "//x") =
      .error e ∧ e.kind = ErrorKind.EvalXPath) ∧
    (∃ e, rootReader.with_nodeset_eval buildOk evalStr (XPathExpression.ofStr "//x") =
      .error e ∧ e.kind = ErrorKind.EvalXPath) ∧
    rootReader.with_nodeset_eval buildOk evalHello (XPathExpression.ofStr "//x") =
      .ok ⟨rootReader.context.clone_ref, Anchor.Nodeset ⟨[nodeHello]⟩⟩ :=
  ⟨(C4_with_nodeset_eval_kinds buildOk evalEmptyNS (readerOf []) (XPathExpression.ofStr "//x")
      (Refable.Owned q0) rfl).1 rfl,
   ((C4_with_nodeset_eval_kinds buildOk evalStr rootReader (XPathExpression.ofStr "//x")
      (Refable.Owned q0) rfl).2 pkg0.root (Value.Str "s") rfl rfl).1
      (fun _ h => Value.noConfusion h),
   ((C4_with_nodeset_eval_kinds buildOk evalHello rootReader (XPathExpression.ofStr "//x")
      (Refable.Owned q0) rfl).2 pkg0.root (Value.Nodeset ⟨[nodeHello]⟩) rfl rfl).2
      ⟨[nodeHello]⟩ rfl⟩

/-- C5 counterexample: at a node with string-value "abc", a numeric
parse failure comes back with kind `Custom` — not a dedicated
conversion-value kind — and its message is the fixed parse diagnostic,
which does not contain the offending substring "abc". -/
theorem C5_conversion_counterexample :
    fromXmlParsed parseU32 (readerOf [nodeAbc]) =
      .error ⟨ErrorKind.Custom, intErrInvalid⟩ ∧
    ErrorKind.Custom ≠ ErrorKind.ConversionValue ∧
    (∀ pre post : String, intErrInvalid ≠ pre ++ "abc" ++ post) := by
  refine ⟨by decide, by decide, ?_⟩
  intro pre post h
  have hb : 'b' ∈ intErrInvalid.data := by
    rw [h, String.data_append, String.data_append]
    simp only [List.mem_append]
    exact Or.inl (Or.inr (by decide))
  exact absurd hb (by decide)

/-- C5 (amended): when the anchor's first node exists and its
string-value fails the target type's textual parse, `from_xml` returns
`Error::custom_err` over the parse diagnostic — Custom kind, never the
evaluation kind `EvalXPath`. -/
theorem C5_parse_failure_kind {β : Type} (p : String → Except String β) (r : Reader)
    (n : Node) (msg : String) (ha : r.anchor_node = some n)
    (hp : p n.string_value = .error msg) :
    fromXmlParsed p r = .error (Error.custom_err msg) ∧
    (Error.custom_err msg).kind = ErrorKind.Custom ∧
    (Error.custom_err msg).kind ≠ ErrorKind.EvalXPath := by
  refine ⟨?_, rfl, fun hh => ErrorKind.noConfusion hh⟩
  simp only [fromXmlParsed, fromXmlString, ha, hp]

/-- C5 amended-claim witness at the "abc" node under `u32` parsing. -/
theorem C5_parse_failure_kind_witness :
    fromXmlParsed parseU32 (readerOf [nodeAbc]) = .error (Error.custom_err intErrInvalid) ∧
    (Error.custom_err intErrInvalid).kind = ErrorKind.Custom ∧
    (Error.custom_err intErrInvalid).kind ≠ ErrorKind.EvalXPath :=
  C5_parse_failure_kind parseU32 (readerOf [nodeAbc]) nodeAbc intErrInvalid rfl (by decide)

/-- C6: an expression obtained from the eager `expression::parse`
evaluates identically to the raw text: `Reader::evaluate` returns the
very same result, and at `with_nodeset_eval` level success values
coincide and failure happens on exactly the same inputs. -/
theorem C6_precompiled_equals_unparsed (bld : BuildFn) (ev : EvalFn) (text : String)
    (ex : XPathExpression) (hp : expressionParse bld text = .ok ex) (r : Reader) :
    r.evaluate bld ev ex = r.evaluate bld ev (XPathExpression.ofStr text) ∧
    (∀ r2, r.with_nodeset_eval bld ev ex = .ok r2 ↔
      r.with_nodeset_eval bld ev (XPathExpression.ofStr text) = .ok r2) ∧
    ((∃ e, r.with_nodeset_eval bld ev ex = .error e) ↔
      (∃ e, r.with_nodeset_eval bld ev (XPathExpression.ofStr text) = .error e)) := by
  obtain ⟨x, hx, hex⟩ : ∃ x, parse_xpath bld text = .ok x ∧
      ex = ⟨Repr.Parsed (Refable.Owned x)⟩ := by
    revert hp
    cases hpx : parse_xpath bld text with
    | error e => intro hp; simp only [expressionParse, hpx] at hp; exact Except.noConfusion hp
    | ok x =>
      intro hp
      simp only [expressionParse, hpx] at hp
      exact ⟨x, rfl, (Except.ok.inj hp).symm⟩
  subst hex
  have hp1 : XPathExpression.parsed bld ⟨Repr.Parsed (Refable.Owned x)⟩ =
      .ok (Refable.Borrowed x) := rfl
  have hp2 : XPathExpression.parsed bld (XPathExpression.ofStr text) =
      .ok (Refable.Owned x) := by
    simp only [XPathExpression.parsed, XPathExpression.ofStr, hx]
  have heq : r.evaluate bld ev ⟨Repr.Parsed (Refable.Owned x)⟩ =
      r.evaluate bld ev (XPathExpression.ofStr text) := by
    simp only [Reader.evaluate, hp1, hp2, Refable.borrow]
  refine ⟨heq, ?_, ?_⟩
  · intro r2
    simp only [Reader.with_nodeset_eval, heq]
    cases hv : r.evaluate bld ev (XPathExpression.ofStr text) with
    | error e => simp
    | ok v => cases v <;> simp
  · simp only [Reader.with_nodeset_eval, heq]
    cases hv : r.evaluate bld ev (XPathExpression.ofStr text) with
    | error e => simp
    | ok v => cases v <;> simp

/-- C6 witness: a pre-compiled fixture expression and its raw text
evaluate to the same result. -/
theorem C6_precompiled_equals_unparsed_witness :
    rootReader.evaluate buildOk evalHello
        (XPathExpression.mk (Repr.Parsed (Refable.Owned q0))) =
      rootReader.evaluate buildOk evalHello (XPathExpression.ofStr "//t") :=
  (C6_precompiled_equals_unparsed buildOk evalHello "//t"
    (XPathExpression.mk (Repr.Parsed (Refable.Owned q0))) rfl rootReader).1

/-- C8: `expression::parse` fails with a compile-kind (`ParseXPath`)
error when the factory rejects the text or compiles it to no program,
and otherwise returns a Parsed-mode expression; `parsed()` on a
Parsed-mode expression re-borrows the held query without consulting
the factory at all, while on an Unparsed expression it compiles the
held text at that call and returns an owned result. -/
theorem C8_parse_and_parsed (bld bld2 : BuildFn) (text : String) :
    (∀ msg, bld text = .error msg →
      expressionParse bld text = .error (Error.internal msg ErrorKind.ParseXPath)) ∧
    (bld text = .ok none →
      expressionParse bld text =
        .error (Error.internal "Empty XPath expression." ErrorKind.ParseXPath)) ∧
    (∀ x, bld text = .ok (some x) →
      expressionParse bld text = .ok ⟨Repr.Parsed (Refable.Owned x)⟩) ∧
    (∀ rf, XPathExpression.parsed bld ⟨Repr.Parsed rf⟩ = .ok (Refable.Borrowed rf.borrow) ∧
      XPathExpression.parsed bld ⟨Repr.Parsed rf⟩ =
        XPathExpression.parsed bld2 ⟨Repr.Parsed rf⟩) ∧
    (∀ x, bld text = .ok (some x) →
      XPathExpression.parsed bld (XPathExpression.ofStr text) = .ok (Refable.Owned x)) := by
  refine ⟨?_, ?_, ?_, ?_, ?_⟩
  · intro msg h
    simp only [expressionParse, parse_xpath, h]
  · intro h
    simp only [expressionParse, parse_xpath, h]
  · intro x h
    simp only [expressionParse, parse_xpath, h]
  · intro rf
    exact ⟨rfl, rfl⟩
  · intro x h
    simp only [XPathExpression.parsed, XPathExpression.ofStr, parse_xpath, h]

/-- C8 witness: the compile-failure, empty-program, success, Parsed
re-borrow and Unparsed compile-now cases at concrete factories. -/
theorem C8_parse_and_parsed_witness :
    expressionParse buildFail "//x" =
      .error (Error.internal "invalid xpath" ErrorKind.ParseXPath) ∧
    expressionParse buildNone "//x" =
      .error (Error.internal "Empty XPath expression." ErrorKind.ParseXPath) ∧
    expressionParse buildOk "//x" = .ok ⟨Repr.Parsed (Refable.Owned q0)⟩ ∧
    XPathExpression.parsed buildOk ⟨Repr.Parsed (Refable.Owned q0)⟩ =
      .ok (Refable.Borrowed q0) ∧
    XPathExpression.parsed buildOk ⟨Repr.Parsed (Refable.Owned q0)⟩ =
      XPathExpression.parsed buildFail ⟨Repr.Parsed (Refable.Owned q0)⟩ ∧
    XPathExpression.parsed buildOk (XPathExpression.ofStr "//x") = .ok (Refable.Owned q0) :=
  ⟨(C8_parse_and_parsed buildFail buildOk "//x").1 "invalid xpath" rfl,
   (C8_parse_and_parsed buildNone buildOk "//x").2.1 rfl,
   (C8_parse_and_parsed buildOk buildOk "//x").2.2.1 q0 rfl,
   ((C8_parse_and_parsed buildOk buildFail "//x").2.2.2.1 (Refable.Owned q0)).1,
   ((C8_parse_and_parsed buildOk buildFail "//x").2.2.2.1 (Refable.Owned q0)).2,
   (C8_parse_and_parsed buildOk buildOk "//x").2.2.2.2 q0 rfl⟩

/-- C9: every reader reached from a root by a nonempty chain of
derivations — `with_nodeset_eval` steps or the per-element readers of
sequence decoding — holds its context in Borrowed mode at the root's
underlying context, so `context()` agrees along the whole chain and
derivation never re-owns the context. -/
theorem C9_derived_context_shared (bld : BuildFn) (ev : EvalFn) (r0 r : Reader)
    (h : Relation.TransGen (DerivedStep bld ev) r0 r) :
    r.context = Refable.Borrowed (r0.context.borrow) ∧
    r.context.borrow = r0.context.borrow := by
  induction h with
  | single hstep =>
    have hs := derivedStep_context hstep
    exact ⟨hs, by rw [hs]; rfl⟩
  | tail hchain hstep ih =>
    have hs := derivedStep_context hstep
    refine ⟨?_, ?_⟩
    · rw [hs, ih.2]
    · rw [hs]
      exact ih.2

/-- C9 witness: a two-step chain (query derivation, then an element
reader) below `rootReader` still borrows `rootReader`'s context. -/
theorem C9_derived_context_shared_witness :
    (Reader.from_node nodeHello (some ctx0)).context = Refable.Borrowed ctx0 :=
  (C9_derived_context_shared buildOk evalHello rootReader
    (Reader.from_node nodeHello (some r1fix.context.borrow))
    (Relation.TransGen.tail
      (Relation.TransGen.single
        (@DerivedStep.eval buildOk evalHello rootReader r1fix (XPathExpression.ofStr "//t") rfl))
      (@DerivedStep.elem buildOk evalHello r1fix nodeHello))).1

end XpathReader
